import Mathlib

/-!
Shallow embedding of `src/approx.c` (minimax approximations of sin, cos,
atan2, exp, log).

Doubles are modelled by exact rationals `ℚ` wherever the code only does
arithmetic and comparisons; where the code reinterprets the bit pattern of a
binary64 value (`Log2`, and the power-of-two construction inside `Exp2`), the
value is modelled by its bit fields (`DBits`: sign bit, 11-bit exponent field,
52-bit mantissa field) together with the semantics function `DBits.val`.
Functions that can return the sentinels NaN or +Infinity return `DVal`.
Decimal literals are copied verbatim from the source; on `ℚ` they are exact.
-/

set_option maxHeartbeats 1000000

/-- Semantics of C's `(int)` cast applied to a double: truncation toward
zero (floor for non-negative values, ceiling for negative values). -/
def itrunc (q : ℚ) : ℤ := if 0 ≤ q then ⌊q⌋ else ⌈q⌉

/-- `Floord` from src/approx.c:
`if (x >= 0) return (double)((int) x); return (double)(((int) x) - 1);` -/
def Floord (x : ℚ) : ℚ := if 0 ≤ x then ((itrunc x : ℤ) : ℚ) else ((itrunc x - 1 : ℤ) : ℚ)

/-- The constant `PI` from src/approx.c (the source's decimal literal, exact). -/
def PI : ℚ := 3.1415926535897932384626433832795028841971693993751058

/-- The constant `SQRT2` from src/approx.c (the source's decimal literal, exact). -/
def SQRT2 : ℚ := 1.4142135623730950488016887242096980785696718753769

/-- The constant `LOG2E` from src/approx.c. -/
def LOG2E : ℚ := 1.4426950408889634073599246810018921374266459541529

/-- The constant `LOGE2` from src/approx.c. -/
def LOGE2 : ℚ := 0.6931471805599453094172321214581765680755001343602

/-- Result of a function that can return a finite double, `INF = 1.0/0.0`, or
`DOUBLE_NAN = 0.0/0.0` (the two sentinel constants of src/approx.c). -/
inductive DVal where
  | num (q : ℚ)
  | inf
  | nan
deriving DecidableEq

/-- Bit fields of a binary64 value: sign bit, 11-bit biased exponent field,
52-bit mantissa field (the `union { double d; cc_uint64 i; }` view used by
`Exp2` and `Log2`). Validity bounds `ex < 2048`, `man < 2^52` appear as
hypotheses of the theorems that need them. -/
structure DBits where
  sign : Bool
  ex : ℕ
  man : ℕ
deriving DecidableEq

/-- IEEE-754 binary64 semantics of a bit pattern (finite patterns; for
`ex = 2047` this extends the normal-value formula, and the theorems treat
infinities and NaNs through their bit fields instead). -/
def DBits.val (d : DBits) : ℚ :=
  let mag : ℚ :=
    if d.ex = 0 then ((d.man : ℚ) / 2 ^ 52) * (2 : ℚ) ^ (-1022 : ℤ)
    else (1 + (d.man : ℚ) / 2 ^ 52) * (2 : ℚ) ^ ((d.ex : ℤ) - 1023)
  if d.sign then -mag else mag

/-- The test `x <= 0.0` of `Log2` expressed on bit fields: false for NaN
(every comparison with a NaN is false), true exactly for negative values
(including -0.0 and -Infinity) and for +0.0. -/
def DBits.le0 (d : DBits) : Prop :=
  ¬(d.ex = 2047 ∧ d.man ≠ 0) ∧ (d.sign = true ∨ (d.ex = 0 ∧ d.man = 0))

instance (d : DBits) : Decidable d.le0 :=
  inferInstanceAs (Decidable (¬(d.ex = 2047 ∧ d.man ≠ 0) ∧ (d.sign = true ∨ (d.ex = 0 ∧ d.man = 0))))

/-- `Log2Stage1` from src/approx.c: the 3rd/3rd degree rational function
LOG2 2524, Horner loops unrolled, coefficients copied verbatim.
Its documented allowed input range is [0.5, 1]. -/
def Log2Stage1 (x : ℚ) : ℚ :=
  let P : ℚ := ((4.81147460989 * x + 6.10585199015) * x + -8.8626599391) * x + -2.05466671951
  let Q : ℚ := ((1.0 * x + 6.42784209029) * x + 4.54517087629) * x + 0.353553425277
  P / Q

/-- `Log2` from src/approx.c on the bit-field view of its argument.
The guard models `x <= 0.0`; `integer_part` models `(doi.i >> 52) - 1023`
(the shift also brings down the sign bit); the bit rewrite
`doi.i |= 1023 << 52; doi.i &= ~(1024 << 52)` sets the low ten exponent bits
and clears the top exponent bit, leaving sign and mantissa untouched. -/
def Log2 (d : DBits) : DVal :=
  if d.le0 then DVal.nan
  else
    let integer_part : ℤ := ((if d.sign then 2 ^ 11 else 0) + d.ex : ℤ) - 1023
    let rewritten : DBits := ⟨d.sign, (d.ex ||| 1023) &&& 1023, d.man⟩
    DVal.num ((integer_part : ℚ) + Log2Stage1 rewritten.val)

/-- `Math_Log` from src/approx.c: `return Log2(x) * LOGE2;` (a NaN factor
propagates; `LOGE2` is positive, so an infinite factor stays +Infinity). -/
def Math_Log (d : DBits) : DVal :=
  match Log2 d with
  | DVal.num q => DVal.num (q * LOGE2)
  | DVal.inf => DVal.inf
  | DVal.nan => DVal.nan

/-- `Exp2Stage1` from src/approx.c: the rational function EXPB 1067 of the
form `(Q(x^2) + x*P(x^2)) / (Q(x^2) - x*P(x^2))`, Horner loops unrolled,
coefficients copied verbatim. -/
def Exp2Stage1 (x : ℚ) : ℚ :=
  let x_2 : ℚ := x * x
  let P : ℚ := ((0.023093347753750233624 * x_2 + 20.202065651286927227886) * x_2 + 1513.906799054338915894328) * x
  let Q : ℚ := (1.0 * x_2 + 233.184211427481623790295) * x_2 + 4368.211662727558498496814
  (Q + P) / (Q - P)

/-- The integer `x_int` computed by `Exp2`:
`int x_int = (int) x; if (x < 0) x_int--;` -/
def exp2Int (x : ℚ) : ℤ := if x < 0 then itrunc x - 1 else itrunc x

/-- The residual `x - (double) x_int - 0.5` passed by `Exp2` to `Exp2Stage1`. -/
def exp2Resid (x : ℚ) : ℚ := x - (exp2Int x : ℚ) - 0.5

/-- `Exp2` from src/approx.c. After the underflow/overflow checks it builds
the bit pattern `doi.i = (x_int + 1023) << 52` (sign 0, exponent field
`x_int + 1023`, mantissa 0) and returns `doi.d * SQRT2 * Exp2Stage1(residual)`. -/
def Exp2 (x : ℚ) : DVal :=
  let x_int := exp2Int x
  if x_int < -1022 then DVal.num 0
  else if 1023 < x_int then DVal.inf
  else DVal.num (DBits.val ⟨false, (x_int + 1023).toNat, 0⟩ * SQRT2 * Exp2Stage1 (exp2Resid x))

/-- `Math_Exp` from src/approx.c: `return Exp2(x * LOG2E);` -/
def Math_Exp (x : ℚ) : DVal := Exp2 (x * LOG2E)

/-- `AtanStage1` from src/approx.c: the 5th degree polynomial ARCTN 4903,
Horner loop unrolled, coefficients copied verbatim.
Its documented allowed input range is [0, tan(pi/32)]. -/
def AtanStage1 (x : ℚ) : ℚ :=
  let x_2 : ℚ := x * x
  (((((-0.08870580341 * x_2 + 0.11108719478) * x_2 + -0.14285702288) * x_2 + 0.1999999997276) * x_2 + -0.3333333333318) * x_2 + 0.99999999999969557) * x

/-- The breakpoint table `X_i` of `AtanStage2`; entry 8 is the sentinel
`INF`, modelled by `⊤` in `WithTop ℚ`. Entries are the source's decimal
literals (which are exact decimal expansions of the doubles). -/
def X_i : ℕ → WithTop ℚ
  | 0 => ((0 : ℚ) : WithTop ℚ)
  | 1 => ((0.0984914033571642477671304050090839155018329620361328125 : ℚ) : WithTop ℚ)
  | 2 => ((0.3033466836073424044428747947677038609981536865234375 : ℚ) : WithTop ℚ)
  | 3 => ((0.53451113595079158269385288804187439382076263427734375 : ℚ) : WithTop ℚ)
  | 4 => ((0.82067879082866024287312711749109439551830291748046875 : ℚ) : WithTop ℚ)
  | 5 => ((1.218503525587976366040265929768793284893035888671875 : ℚ) : WithTop ℚ)
  | 6 => ((1.8708684117893887854933154812897555530071258544921875 : ℚ) : WithTop ℚ)
  | 7 => ((3.29655820893832096629694206058047711849212646484375 : ℚ) : WithTop ℚ)
  | _ => ⊤

/-- The table `div_x_i` (`1/x_i`) of `AtanStage2`, literals copied verbatim. -/
def div_x_i : ℕ → ℚ
  | 0 => 0
  | 1 => 0
  | 2 => 5.02733949212584807497705696732737123966217041015625
  | 3 => 2.41421356237309492343001693370752036571502685546875
  | 4 => 1.496605762665489169904731170390732586383819580078125
  | 5 => 1.0000000000000002220446049250313080847263336181640625
  | 6 => 0.66817863791929898997778991542872972786426544189453125
  | 7 => 0.414213562373095089963470627481001429259777069091796875
  | 8 => 0.1989123673796580893391450217677629552781581878662109375
  | _ => 0

/-- The table `div_x_i_2_plus_1` (`1/x_i^2 + 1`) of `AtanStage2`, literals
copied verbatim. -/
def div_x_i_2_plus_1 : ℕ → ℚ
  | 0 => 0
  | 1 => 0
  | 2 => 26.2741423690881816810360760428011417388916015625
  | 3 => 6.8284271247461898468600338674150407314300537109375
  | 4 => 3.23982880884355051165357508580200374126434326171875
  | 5 => 2.000000000000000444089209850062616169452667236328125
  | 6 => 1.446462692171689656817079594475217163562774658203125
  | 7 => 1.1715728752538099310953612075536511838436126708984375
  | 8 => 1.0395661298965801488947136022034101188182830810546875
  | _ => 0

/-- The binary-search loop of `AtanStage2`, as fuel-bounded recursion:
`while (R - L > 1) { int m = (L + R) / 2; if (X_i[m] <= x) L = m; else R = m; }`
(the `else if (X_i[m] > x)` of the source is the negation of the first test
for non-NaN values). `AtanStage2` runs it from `(L, R) = (0, 8)` with fuel 8,
more than the loop can ever use. -/
def atanSearch (x : ℚ) : ℕ → ℕ → ℕ → ℕ × ℕ
  | 0, L, R => (L, R)
  | fuel + 1, L, R =>
    if R - L > 1 then
      let m := (L + R) / 2
      if X_i m ≤ (x : WithTop ℚ) then atanSearch x fuel m R
      else atanSearch x fuel L m
    else (L, R)

/-- `AtanStage2` from src/approx.c: binary-search the partition, then either
apply `AtanStage1` directly (`R <= 1`) or reduce through the addition formula
with `t = div_x_i[R] - div_x_i_2_plus_1[R] / (div_x_i[R] + x)` and return
`(2*R - 2) * PI / 32.0 ± AtanStage1(±t)`. -/
def AtanStage2 (x : ℚ) : ℚ :=
  let LR := atanSearch x 8 0 8
  let R := LR.2
  if R ≤ 1 then AtanStage1 x
  else
    let t : ℚ := div_x_i R - div_x_i_2_plus_1 R / (div_x_i R + x)
    if 0 ≤ t then ((2 * R - 2 : ℕ) : ℚ) * PI / 32 + AtanStage1 t
    else ((2 * R - 2 : ℕ) : ℚ) * PI / 32 - AtanStage1 (-t)

/-- `Atan` from src/approx.c:
`if (x >= 0) return AtanStage2(x); return -AtanStage2(-x);` -/
def Atan (x : ℚ) : ℚ := if 0 ≤ x then AtanStage2 x else -AtanStage2 (-x)

/-- `Math_Atan2` from src/approx.c, branch for branch; the final branch
(`x == 0`, `y == 0`) returns `DOUBLE_NAN`. -/
def Math_Atan2 (y x : ℚ) : DVal :=
  if 0 < x then DVal.num (Atan (y / x))
  else if x < 0 then
    if 0 ≤ y then DVal.num (Atan (y / x) + PI)
    else DVal.num (Atan (y / x) - PI)
  else if 0 < y then DVal.num (PI / 2)
  else if y < 0 then DVal.num (-PI / 2)
  else DVal.nan

/-! ### Helper lemmas about the integer conversion and `Exp2`'s split -/

lemma itrunc_intCast (k : ℤ) : itrunc (k : ℚ) = k := by
  unfold itrunc
  rcases le_or_lt 0 k with h | h
  · rw [if_pos (by exact_mod_cast h), Int.floor_intCast]
  · rw [if_neg (not_le.mpr (by exact_mod_cast h)), Int.ceil_intCast]

lemma exp2Int_of_nonneg (x : ℚ) (hx : 0 ≤ x) : exp2Int x = ⌊x⌋ := by
  unfold exp2Int itrunc
  rw [if_neg (not_lt.mpr hx), if_pos hx]

lemma exp2Int_of_neg_int (k : ℤ) (hk : k < 0) : exp2Int (k : ℚ) = k - 1 := by
  unfold exp2Int
  rw [if_pos (by exact_mod_cast hk), itrunc_intCast]

lemma ceil_eq_floor_add_one_of_nonint (x : ℚ) (hni : ¬∃ k : ℤ, x = (k : ℚ)) :
    ⌈x⌉ = ⌊x⌋ + 1 := by
  have hne : (⌊x⌋ : ℚ) ≠ x := fun h => hni ⟨⌊x⌋, h.symm⟩
  have hlt : (⌊x⌋ : ℚ) < x := lt_of_le_of_ne (Int.floor_le x) hne
  have h1 : ⌊x⌋ + 1 ≤ ⌈x⌉ := by
    have := Int.lt_ceil.mpr hlt
    omega
  have h2 : ⌈x⌉ ≤ ⌊x⌋ + 1 := by
    apply Int.ceil_le.mpr
    push_cast
    linarith [Int.lt_floor_add_one x]
  omega

lemma exp2Int_of_neg_nonint (x : ℚ) (hx : x < 0) (hni : ¬∃ k : ℤ, x = (k : ℚ)) :
    exp2Int x = ⌊x⌋ := by
  unfold exp2Int itrunc
  rw [if_pos hx, if_neg (not_le.mpr hx), ceil_eq_floor_add_one_of_nonint x hni]
  omega

lemma exp2Int_bounds (x : ℚ) : x - 1 ≤ (exp2Int x : ℚ) ∧ (exp2Int x : ℚ) ≤ x := by
  unfold exp2Int itrunc
  by_cases hx : x < 0
  · rw [if_pos hx, if_neg (not_le.mpr hx)]
    push_cast
    constructor
    · linarith [Int.le_ceil x]
    · linarith [Int.ceil_lt_add_one x]
  · rw [if_neg hx, if_pos (not_lt.mp hx)]
    constructor
    · linarith [Int.lt_floor_add_one x]
    · exact Int.floor_le x

lemma exp2Resid_mem (x : ℚ) : -(1 / 2) ≤ exp2Resid x ∧ exp2Resid x ≤ 1 / 2 := by
  have h := exp2Int_bounds x
  unfold exp2Resid
  norm_num
  constructor <;> linarith [h.1, h.2]

lemma exp2Stage1_pos (r : ℚ) (h1 : -(1 / 2) ≤ r) (h2 : r ≤ 1 / 2) : 0 < Exp2Stage1 r := by
  simp only [Exp2Stage1]
  have hu0 : 0 ≤ r * r := mul_self_nonneg r
  have hu4 : r * r ≤ 1 / 4 := by nlinarith
  apply div_pos <;> nlinarith [mul_nonneg hu0 hu0, mul_le_mul hu4 hu4 hu0 (by norm_num : (0:ℚ) ≤ 1/4),
    mul_nonneg (mul_nonneg hu0 hu0) (sub_nonneg.mpr h2), mul_nonneg (mul_nonneg hu0 hu0) (by linarith : (0:ℚ) ≤ r + 1/2),
    mul_nonneg hu0 (sub_nonneg.mpr h2), mul_nonneg hu0 (by linarith : (0:ℚ) ≤ r + 1/2)]

/-! ### Helper lemmas about bit-pattern values -/

lemma val_false_nonneg (ex man : ℕ) : 0 ≤ DBits.val ⟨false, ex, man⟩ := by
  simp only [DBits.val]
  norm_num
  split_ifs <;> positivity

lemma val_false_pos (ex man : ℕ) (h : ex ≠ 0 ∨ man ≠ 0) : 0 < DBits.val ⟨false, ex, man⟩ := by
  simp only [DBits.val]
  norm_num
  split_ifs with h0
  · rcases h with h | h
    · exact absurd h0 h
    · have hm : (0 : ℚ) < (man : ℚ) := by exact_mod_cast Nat.pos_of_ne_zero h
      positivity
  · positivity

lemma val_true_neg (ex man : ℕ) : DBits.val ⟨true, ex, man⟩ = -DBits.val ⟨false, ex, man⟩ := by
  simp [DBits.val]

lemma val_zero_zero (s : Bool) : DBits.val ⟨s, 0, 0⟩ = 0 := by
  cases s <;> simp [DBits.val]

/-! ### Claim theorems -/

/-- Claim C1 (code_bug evaluation): at the failing input `x = -1.0`, which is
finite, integer-valued and well inside the native int range, `Floord` returns
`-2.0`, while the true mathematical floor of `-1.0` is `-1.0`: the code
subtracts one for every negative `x`, not only when truncation rounded up
past the floor. -/
theorem C1_floord_at_neg_one : Floord (-1) = -2 ∧ (⌊(-1 : ℚ)⌋ : ℚ) = -1 ∧ Floord (-1) ≠ (⌊(-1 : ℚ)⌋ : ℚ) := by
  have hi : itrunc (-1 : ℚ) = -1 := by
    have := itrunc_intCast (-1)
    push_cast at this
    exact this
  have hf : (⌊(-1 : ℚ)⌋ : ℚ) = -1 := by
    have h0 : ⌊(-1 : ℚ)⌋ = -1 := by
      rw [show ((-1 : ℚ)) = ((-1 : ℤ) : ℚ) by norm_num, Int.floor_intCast]
    rw [h0]
    norm_num
  have h1 : Floord (-1) = -2 := by
    unfold Floord
    rw [if_neg (by norm_num), hi]
    norm_num
  refine ⟨h1, hf, ?_⟩
  rw [h1, hf]
  norm_num

/-- Claim C3 (counterexample): at `x = -1.0` the non-sentinel branch of `Exp2`
is taken (`n = -2` lies in `[-1022, 1023]`), yet `n` is not `⌊x⌋ = -1`, and
the residual equals `0.5`, outside the claimed half-open interval
`[-0.5, 0.5)`. -/
theorem C3_residual_counterexample :
    (-1022 ≤ exp2Int (-1 : ℚ) ∧ exp2Int (-1 : ℚ) ≤ 1023) ∧
    exp2Int (-1 : ℚ) ≠ ⌊(-1 : ℚ)⌋ ∧ ¬exp2Resid (-1 : ℚ) < 1 / 2 := by
  have h1 : exp2Int (-1 : ℚ) = -2 := by
    have := exp2Int_of_neg_int (-1) (by norm_num)
    push_cast at this
    rw [this]
  have hf : ⌊(-1 : ℚ)⌋ = -1 := by
    have := Int.floor_intCast (α := ℚ) (-1)
    push_cast at this
    rw [this]
  have h2 : exp2Resid (-1 : ℚ) = 1 / 2 := by
    unfold exp2Resid
    rw [h1]
    norm_num
  rw [h1, hf, h2]
  norm_num

/-- Claim C3 (amended): the integer part `n` computed by `Exp2` equals `⌊x⌋`
and the residual lies in `[-0.5, 0.5)` for every `x` that is non-negative or
negative but not integer-valued; for negative integer-valued `x` the code
instead computes `n = ⌊x⌋ - 1` and the residual is exactly `0.5`; in every
case the residual lies in the closed interval `[-0.5, 0.5]` (the full allowed
input range of `Exp2Stage1`). -/
theorem C3_exp2_split_amended (x : ℚ) :
    ((0 ≤ x ∨ ¬∃ k : ℤ, x = (k : ℚ)) →
      exp2Int x = ⌊x⌋ ∧ -(1 / 2) ≤ exp2Resid x ∧ exp2Resid x < 1 / 2) ∧
    ((x < 0 ∧ ∃ k : ℤ, x = (k : ℚ)) →
      exp2Int x = ⌊x⌋ - 1 ∧ exp2Resid x = 1 / 2) ∧
    (-(1 / 2) ≤ exp2Resid x ∧ exp2Resid x ≤ 1 / 2) := by
  refine ⟨?_, ?_, exp2Resid_mem x⟩
  · intro h
    have hn : exp2Int x = ⌊x⌋ := by
      rcases h with h | h
      · exact exp2Int_of_nonneg x h
      · rcases lt_or_le x 0 with hx | hx
        · exact exp2Int_of_neg_nonint x hx h
        · exact exp2Int_of_nonneg x hx
    refine ⟨hn, ?_, ?_⟩
    · have h1 := Int.floor_le x
      unfold exp2Resid
      rw [hn]
      linarith
    · have h2 := Int.lt_floor_add_one x
      unfold exp2Resid
      rw [hn]
      linarith
  · rintro ⟨hx, k, rfl⟩
    have hk : k < 0 := by exact_mod_cast hx
    have hn : exp2Int (k : ℚ) = k - 1 := exp2Int_of_neg_int k hk
    have hfk : ⌊(k : ℚ)⌋ = k := Int.floor_intCast k
    refine ⟨by rw [hn, hfk], ?_⟩
    unfold exp2Resid
    rw [hn]
    push_cast
    ring

/-- Witness for C3's amended theorem: concrete instances `x = -1.0` (negative
integer) and `x = 3/2` (non-integer). -/
theorem C3_exp2_split_amended_witness :
    (exp2Int (-1 : ℚ) = ⌊(-1 : ℚ)⌋ - 1 ∧ exp2Resid (-1 : ℚ) = 1 / 2) ∧
    (exp2Int (3 / 2 : ℚ) = ⌊(3 / 2 : ℚ)⌋ ∧ -(1 / 2) ≤ exp2Resid (3 / 2 : ℚ) ∧ exp2Resid (3 / 2 : ℚ) < 1 / 2) :=
  ⟨(C3_exp2_split_amended (-1)).2.1 ⟨by norm_num, ⟨-1, by norm_num⟩⟩,
   (C3_exp2_split_amended (3 / 2)).1 (Or.inl (by norm_num))⟩

/-- Claim C10: for every negative integer-valued double `x` in the native int
range, the internal integer part computed by `Exp2` is `x - 1` rather than
`x`; in particular `Exp2(-1022.0)` returns exactly `0.0` because the internal
integer becomes `-1023`, tripping the underflow test. -/
theorem C10_exp2_neg_int :
    (∀ k : ℤ, -(2 ^ 31) < k → k < 0 → exp2Int (k : ℚ) = k - 1) ∧
    Exp2 (-1022 : ℚ) = DVal.num 0 := by
  constructor
  · intro k _ hk
    exact exp2Int_of_neg_int k hk
  · have h : exp2Int (-1022 : ℚ) = -1023 := by
      have := exp2Int_of_neg_int (-1022) (by norm_num)
      push_cast at this
      rw [this]
    simp only [Exp2]
    rw [h, if_pos (by norm_num)]

/-- Witness for C10 at the concrete negative integer `k = -5`. -/
theorem C10_exp2_neg_int_witness :
    exp2Int ((-5 : ℤ) : ℚ) = -5 - 1 ∧ Exp2 (-1022 : ℚ) = DVal.num 0 :=
  ⟨C10_exp2_neg_int.1 (-5) (by norm_num) (by norm_num), C10_exp2_neg_int.2⟩

/-- Claim C4: `Math_Atan2` implements exactly the quadrant table of the
claim: `Atan(y/x)` for `x > 0`; `Atan(y/x) ± π` for `x < 0` according to the
sign of `y`; `±π/2` on the axis `x = 0` according to the sign of `y`; and NaN
at the origin. -/
theorem C4_atan2_quadrants (y x : ℚ) :
    (0 < x → Math_Atan2 y x = DVal.num (Atan (y / x))) ∧
    (x < 0 → 0 ≤ y → Math_Atan2 y x = DVal.num (Atan (y / x) + PI)) ∧
    (x < 0 → y < 0 → Math_Atan2 y x = DVal.num (Atan (y / x) - PI)) ∧
    (x = 0 → 0 < y → Math_Atan2 y x = DVal.num (PI / 2)) ∧
    (x = 0 → y < 0 → Math_Atan2 y x = DVal.num (-(PI / 2))) ∧
    (x = 0 → y = 0 → Math_Atan2 y x = DVal.nan) := by
  refine ⟨?_, ?_, ?_, ?_, ?_, ?_⟩
  · intro h
    unfold Math_Atan2
    rw [if_pos h]
  · intro h hy
    unfold Math_Atan2
    rw [if_neg (not_lt.mpr h.le), if_pos h, if_pos hy]
  · intro h hy
    unfold Math_Atan2
    rw [if_neg (not_lt.mpr h.le), if_pos h, if_neg (not_le.mpr hy)]
  · intro hx hy
    subst hx
    unfold Math_Atan2
    rw [if_neg (lt_irrefl 0), if_neg (lt_irrefl 0), if_pos hy]
  · intro hx hy
    subst hx
    unfold Math_Atan2
    rw [if_neg (lt_irrefl 0), if_neg (lt_irrefl 0), if_neg (not_lt.mpr hy.le), if_pos hy]
    congr 1
    ring
  · intro hx hy
    subst hx
    subst hy
    unfold Math_Atan2
    rw [if_neg (lt_irrefl 0), if_neg (lt_irrefl 0), if_neg (lt_irrefl 0), if_neg (lt_irrefl 0)]

/-- Witness for C4 at the concrete inputs `(y, x) = (0, 0)` and `(1, 0)`. -/
theorem C4_atan2_quadrants_witness :
    Math_Atan2 0 0 = DVal.nan ∧ Math_Atan2 1 0 = DVal.num (PI / 2) :=
  ⟨(C4_atan2_quadrants 0 0).2.2.2.2.2 rfl rfl,
   (C4_atan2_quadrants 1 0).2.2.2.1 rfl (by norm_num)⟩

/-- Claim C5: `Exp2` returns exactly `0.0` when the internal integer `n` is
below `-1022`, `+Infinity` when it is above `1023`, and neither sentinel when
`n` lies in `[-1022, 1023]` (there the result is a product of strictly
positive factors: `2^n`, `SQRT2`, and `Exp2Stage1` of a residual in
`[-0.5, 0.5]`). -/
theorem C5_exp2_sentinels (x : ℚ) :
    (exp2Int x < -1022 → Exp2 x = DVal.num 0) ∧
    (1023 < exp2Int x → Exp2 x = DVal.inf) ∧
    (-1022 ≤ exp2Int x → exp2Int x ≤ 1023 → Exp2 x ≠ DVal.num 0 ∧ Exp2 x ≠ DVal.inf) := by
  refine ⟨?_, ?_, ?_⟩
  · intro h
    simp only [Exp2]
    rw [if_pos h]
  · intro h
    simp only [Exp2]
    rw [if_neg (by omega), if_pos h]
  · intro h1 h2
    have hval : 0 < DBits.val ⟨false, (exp2Int x + 1023).toNat, 0⟩ := by
      apply val_false_pos
      left
      omega
    have hsq : (0 : ℚ) < SQRT2 := by norm_num [SQRT2]
    have hst := exp2Stage1_pos (exp2Resid x) (exp2Resid_mem x).1 (exp2Resid_mem x).2
    have hpos := mul_pos (mul_pos hval hsq) hst
    simp only [Exp2]
    rw [if_neg (by omega), if_neg (by omega)]
    constructor
    · intro hc
      injection hc with hq
      rw [hq] at hpos
      exact lt_irrefl 0 hpos
    · intro hc
      exact DVal.noConfusion hc

/-- Witness for C5 at the concrete inputs `x = -2000` (underflow),
`x = 2000` (overflow) and `x = 0` (no sentinel). -/
theorem C5_exp2_sentinels_witness :
    Exp2 (-2000 : ℚ) = DVal.num 0 ∧ Exp2 (2000 : ℚ) = DVal.inf ∧
    (Exp2 (0 : ℚ) ≠ DVal.num 0 ∧ Exp2 (0 : ℚ) ≠ DVal.inf) := by
  have hu : exp2Int (-2000 : ℚ) = -2001 := by
    have := exp2Int_of_neg_int (-2000) (by norm_num)
    push_cast at this
    rw [this]
  have ho : exp2Int (2000 : ℚ) = 2000 := by
    rw [exp2Int_of_nonneg 2000 (by norm_num),
      show ((2000 : ℚ)) = ((2000 : ℤ) : ℚ) by norm_num, Int.floor_intCast]
  have hz : exp2Int (0 : ℚ) = 0 := by
    rw [exp2Int_of_nonneg 0 (by norm_num)]
    norm_num
  exact ⟨(C5_exp2_sentinels (-2000)).1 (by rw [hu]; norm_num),
    (C5_exp2_sentinels 2000).2.1 (by rw [ho]; norm_num),
    (C5_exp2_sentinels 0).2.2 (by rw [hz]; norm_num) (by rw [hz]; norm_num)⟩

/-- Claim C6: `Log2` returns NaN for every input that is `≤ 0` (finite
non-positive values, including both zeros, and -Infinity), and consequently
`Math_Log` returns NaN there too; for positive inputs (finite positive values
and +Infinity) the NaN branch is not taken. -/
theorem C6_log2_nonpos_nan (d : DBits) :
    (d.ex < 2047 → d.val ≤ 0 → Log2 d = DVal.nan ∧ Math_Log d = DVal.nan) ∧
    (d.sign = true → d.ex = 2047 → d.man = 0 → Log2 d = DVal.nan ∧ Math_Log d = DVal.nan) ∧
    (d.ex < 2047 → 0 < d.val → Log2 d ≠ DVal.nan ∧ Math_Log d ≠ DVal.nan) ∧
    (d.sign = false → d.ex = 2047 → d.man = 0 → Log2 d ≠ DVal.nan ∧ Math_Log d ≠ DVal.nan) := by
  obtain ⟨s, ex, man⟩ := d
  refine ⟨?_, ?_, ?_, ?_⟩
  · intro hex hval
    have hle0 : DBits.le0 ⟨s, ex, man⟩ := by
      constructor
      · rintro ⟨he, -⟩
        omega
      · cases s with
        | true => exact Or.inl rfl
        | false =>
          right
          by_contra hne
          have h' : ex ≠ 0 ∨ man ≠ 0 := by tauto
          have := val_false_pos ex man h'
          linarith
    have hlog : Log2 ⟨s, ex, man⟩ = DVal.nan := by
      simp only [Log2]
      rw [if_pos hle0]
    exact ⟨hlog, by simp [Math_Log, hlog]⟩
  · intro hs hex hman
    subst hs hex hman
    have hle0 : DBits.le0 ⟨true, 2047, 0⟩ := ⟨by simp, Or.inl rfl⟩
    have hlog : Log2 ⟨true, 2047, 0⟩ = DVal.nan := by
      simp only [Log2]
      rw [if_pos hle0]
    exact ⟨hlog, by simp [Math_Log, hlog]⟩
  · intro hex hval
    have hle0 : ¬DBits.le0 ⟨s, ex, man⟩ := by
      rintro ⟨-, h2⟩
      rcases h2 with hs | ⟨h0, hm⟩
      · subst hs
        have := val_false_nonneg ex man
        rw [val_true_neg] at hval
        linarith
      · subst h0
        subst hm
        rw [val_zero_zero] at hval
        exact lt_irrefl 0 hval
    have hlog : ∃ q, Log2 ⟨s, ex, man⟩ = DVal.num q := by
      simp only [Log2]
      rw [if_neg hle0]
      exact ⟨_, rfl⟩
    obtain ⟨q, hq⟩ := hlog
    exact ⟨by rw [hq]; exact fun h => DVal.noConfusion h,
      by simp [Math_Log, hq]⟩
  · intro hs hex hman
    subst hs hex hman
    have hle0 : ¬DBits.le0 ⟨false, 2047, 0⟩ := by
      rintro ⟨-, h2⟩
      rcases h2 with hs | ⟨h0, -⟩
      · exact Bool.noConfusion hs
      · exact absurd h0 (by decide)
    have hlog : ∃ q, Log2 ⟨false, 2047, 0⟩ = DVal.num q := by
      simp only [Log2]
      rw [if_neg hle0]
      exact ⟨_, rfl⟩
    obtain ⟨q, hq⟩ := hlog
    exact ⟨by rw [hq]; exact fun h => DVal.noConfusion h,
      by simp [Math_Log, hq]⟩

/-- Witness for C6 at the concrete bit patterns of `-1.0` (sign 1, exponent
field 1023, mantissa 0) and `1.0` (sign 0, exponent field 1023, mantissa 0). -/
theorem C6_log2_nonpos_nan_witness :
    (Log2 ⟨true, 1023, 0⟩ = DVal.nan ∧ Math_Log ⟨true, 1023, 0⟩ = DVal.nan) ∧
    Log2 ⟨false, 1023, 0⟩ ≠ DVal.nan := by
  have hv1 : DBits.val ⟨true, 1023, 0⟩ = -1 := by
    simp [DBits.val]
  have hv2 : DBits.val ⟨false, 1023, 0⟩ = 1 := by
    simp [DBits.val]
  exact ⟨(C6_log2_nonpos_nan ⟨true, 1023, 0⟩).1 (by norm_num) (by rw [hv1]; norm_num),
    ((C6_log2_nonpos_nan ⟨false, 1023, 0⟩).2.2.1 (by norm_num) (by rw [hv2]; norm_num)).1⟩

/-! ### Helper lemmas about the binary search of `AtanStage2` -/

lemma atanSearch_step (x : ℚ) (fuel L R : ℕ) :
    atanSearch x (fuel + 1) L R =
      if R - L > 1 then
        if X_i ((L + R) / 2) ≤ (x : WithTop ℚ) then atanSearch x fuel ((L + R) / 2) R
        else atanSearch x fuel L ((L + R) / 2)
      else (L, R) := rfl

lemma atanSearch_adj (x : ℚ) (fuel L R : ℕ) (h : R ≤ L + 1) : atanSearch x fuel L R = (L, R) := by
  cases fuel with
  | zero => rfl
  | succ n =>
    rw [atanSearch_step, if_neg (by omega)]

lemma xi_le_of (q x : ℚ) (i : ℕ) (hq : X_i i = (q : WithTop ℚ)) (h : q ≤ x) :
    X_i i ≤ (x : WithTop ℚ) := by
  rw [hq]
  exact_mod_cast h

lemma not_xi_le_of (q x : ℚ) (i : ℕ) (hq : X_i i = (q : WithTop ℚ)) (h : x < q) :
    ¬X_i i ≤ (x : WithTop ℚ) := by
  rw [hq]
  intro hc
  exact absurd (WithTop.coe_le_coe.mp hc) (not_le.mpr h)

lemma atanSearch_eval0 (x : ℚ) (fuel : ℕ)
    (h4 : ¬X_i 4 ≤ (x : WithTop ℚ)) (h2 : ¬X_i 2 ≤ (x : WithTop ℚ))
    (h1 : ¬X_i 1 ≤ (x : WithTop ℚ)) :
    atanSearch x (fuel + 1 + 1 + 1) 0 8 = (0, 1) := by
  rw [atanSearch_step, if_pos (by omega)]
  norm_num
  rw [if_neg h4, atanSearch_step, if_pos (by omega)]
  norm_num
  rw [if_neg h2, atanSearch_step, if_pos (by omega)]
  norm_num
  rw [if_neg h1]
  exact atanSearch_adj x fuel 0 1 (by omega)

lemma atanSearch_eval1 (x : ℚ) (fuel : ℕ)
    (h4 : ¬X_i 4 ≤ (x : WithTop ℚ)) (h2 : ¬X_i 2 ≤ (x : WithTop ℚ))
    (h1 : X_i 1 ≤ (x : WithTop ℚ)) :
    atanSearch x (fuel + 1 + 1 + 1) 0 8 = (1, 2) := by
  rw [atanSearch_step, if_pos (by omega)]
  norm_num
  rw [if_neg h4, atanSearch_step, if_pos (by omega)]
  norm_num
  rw [if_neg h2, atanSearch_step, if_pos (by omega)]
  norm_num
  rw [if_pos h1]
  exact atanSearch_adj x fuel 1 2 (by omega)

lemma atanSearch_eval2 (x : ℚ) (fuel : ℕ)
    (h4 : ¬X_i 4 ≤ (x : WithTop ℚ)) (h2 : X_i 2 ≤ (x : WithTop ℚ))
    (h3 : ¬X_i 3 ≤ (x : WithTop ℚ)) :
    atanSearch x (fuel + 1 + 1 + 1) 0 8 = (2, 3) := by
  rw [atanSearch_step, if_pos (by omega)]
  norm_num
  rw [if_neg h4, atanSearch_step, if_pos (by omega)]
  norm_num
  rw [if_pos h2, atanSearch_step, if_pos (by omega)]
  norm_num
  rw [if_neg h3]
  exact atanSearch_adj x fuel 2 3 (by omega)

lemma atanSearch_eval3 (x : ℚ) (fuel : ℕ)
    (h4 : ¬X_i 4 ≤ (x : WithTop ℚ)) (h2 : X_i 2 ≤ (x : WithTop ℚ))
    (h3 : X_i 3 ≤ (x : WithTop ℚ)) :
    atanSearch x (fuel + 1 + 1 + 1) 0 8 = (3, 4) := by
  rw [atanSearch_step, if_pos (by omega)]
  norm_num
  rw [if_neg h4, atanSearch_step, if_pos (by omega)]
  norm_num
  rw [if_pos h2, atanSearch_step, if_pos (by omega)]
  norm_num
  rw [if_pos h3]
  exact atanSearch_adj x fuel 3 4 (by omega)

lemma atanSearch_eval4 (x : ℚ) (fuel : ℕ)
    (h4 : X_i 4 ≤ (x : WithTop ℚ)) (h6 : ¬X_i 6 ≤ (x : WithTop ℚ))
    (h5 : ¬X_i 5 ≤ (x : WithTop ℚ)) :
    atanSearch x (fuel + 1 + 1 + 1) 0 8 = (4, 5) := by
  rw [atanSearch_step, if_pos (by omega)]
  norm_num
  rw [if_pos h4, atanSearch_step, if_pos (by omega)]
  norm_num
  rw [if_neg h6, atanSearch_step, if_pos (by omega)]
  norm_num
  rw [if_neg h5]
  exact atanSearch_adj x fuel 4 5 (by omega)

lemma atanSearch_eval5 (x : ℚ) (fuel : ℕ)
    (h4 : X_i 4 ≤ (x : WithTop ℚ)) (h6 : ¬X_i 6 ≤ (x : WithTop ℚ))
    (h5 : X_i 5 ≤ (x : WithTop ℚ)) :
    atanSearch x (fuel + 1 + 1 + 1) 0 8 = (5, 6) := by
  rw [atanSearch_step, if_pos (by omega)]
  norm_num
  rw [if_pos h4, atanSearch_step, if_pos (by omega)]
  norm_num
  rw [if_neg h6, atanSearch_step, if_pos (by omega)]
  norm_num
  rw [if_pos h5]
  exact atanSearch_adj x fuel 5 6 (by omega)

lemma atanSearch_eval6 (x : ℚ) (fuel : ℕ)
    (h4 : X_i 4 ≤ (x : WithTop ℚ)) (h6 : X_i 6 ≤ (x : WithTop ℚ))
    (h7 : ¬X_i 7 ≤ (x : WithTop ℚ)) :
    atanSearch x (fuel + 1 + 1 + 1) 0 8 = (6, 7) := by
  rw [atanSearch_step, if_pos (by omega)]
  norm_num
  rw [if_pos h4, atanSearch_step, if_pos (by omega)]
  norm_num
  rw [if_pos h6, atanSearch_step, if_pos (by omega)]
  norm_num
  rw [if_neg h7]
  exact atanSearch_adj x fuel 6 7 (by omega)

lemma atanSearch_eval7 (x : ℚ) (fuel : ℕ)
    (h4 : X_i 4 ≤ (x : WithTop ℚ)) (h6 : X_i 6 ≤ (x : WithTop ℚ))
    (h7 : X_i 7 ≤ (x : WithTop ℚ)) :
    atanSearch x (fuel + 1 + 1 + 1) 0 8 = (7, 8) := by
  rw [atanSearch_step, if_pos (by omega)]
  norm_num
  rw [if_pos h4, atanSearch_step, if_pos (by omega)]
  norm_num
  rw [if_pos h6, atanSearch_step, if_pos (by omega)]
  norm_num
  rw [if_pos h7]
  exact atanSearch_adj x fuel 7 8 (by omega)

lemma AtanStage1_zero : AtanStage1 0 = 0 := by
  simp [AtanStage1]

lemma atanSearch_at_zero : atanSearch 0 8 0 8 = (0, 1) := by
  have h := atanSearch_eval0 0 5
    (not_xi_le_of _ 0 4 rfl (by norm_num))
    (not_xi_le_of _ 0 2 rfl (by norm_num))
    (not_xi_le_of _ 0 1 rfl (by norm_num))
  norm_num at h
  exact h

lemma AtanStage2_zero : AtanStage2 0 = 0 := by
  simp only [AtanStage2, atanSearch_at_zero]
  norm_num
  exact AtanStage1_zero

/-- Claim C7: `Atan` is exactly odd: `Atan(-x) = -Atan(x)` as computed
values, for every input (for `x = 0` both sides are exactly zero because
`AtanStage1` ends with a multiplication by its argument). -/
theorem C7_atan_odd (x : ℚ) : Atan (-x) = -Atan x := by
  rcases lt_trichotomy x 0 with h | h | h
  · unfold Atan
    rw [if_pos (by linarith : (0 : ℚ) ≤ -x), if_neg (not_le.mpr h), neg_neg]
  · subst h
    have h1 : Atan 0 = 0 := by
      unfold Atan
      rw [if_pos le_rfl, AtanStage2_zero]
    rw [neg_zero, h1, neg_zero]
  · unfold Atan
    rw [if_neg (by intro hc; linarith : ¬(0 : ℚ) ≤ -x), if_pos h.le, neg_neg]

/-- Claim C8: for every `x ≥ 0` the binary search of `AtanStage2` keeps
`L < R` within the initial bounds (so from `(0, 8)` every state satisfies
`0 ≤ L < R ≤ 8`), three iterations already reach the final state, the final
state is adjacent (`R = L + 1`), and it brackets the input:
`X_i[R-1] ≤ x < X_i[R]` (with `X_i[8] = +∞ = ⊤`). -/
theorem C8_atan_search (x : ℚ) (hx : 0 ≤ x) :
    (∀ fuel L R, L < R →
      L ≤ (atanSearch x fuel L R).1 ∧
      (atanSearch x fuel L R).1 < (atanSearch x fuel L R).2 ∧
      (atanSearch x fuel L R).2 ≤ R) ∧
    (atanSearch x 8 0 8).2 = (atanSearch x 8 0 8).1 + 1 ∧
    atanSearch x 8 0 8 = atanSearch x 3 0 8 ∧
    X_i (atanSearch x 8 0 8).1 ≤ (x : WithTop ℚ) ∧
    (x : WithTop ℚ) < X_i (atanSearch x 8 0 8).2 := by
  constructor
  · intro fuel
    induction fuel with
    | zero => exact fun L R h1 => ⟨le_refl L, h1, le_refl R⟩
    | succ n ih =>
      intro L R h1
      rw [atanSearch_step]
      by_cases hg : R - L > 1
      · rw [if_pos hg]
        have hm1 : L < (L + R) / 2 := by omega
        have hm2 : (L + R) / 2 < R := by omega
        by_cases hc : X_i ((L + R) / 2) ≤ (x : WithTop ℚ)
        · rw [if_pos hc]
          have h := ih ((L + R) / 2) R hm2
          exact ⟨le_trans hm1.le h.1, h.2.1, h.2.2⟩
        · rw [if_neg hc]
          have h := ih L ((L + R) / 2) hm1
          exact ⟨h.1, h.2.1, le_trans h.2.2 hm2.le⟩
      · rw [if_neg hg]
        exact ⟨le_refl L, h1, le_refl R⟩
  · have hx0 : X_i 0 ≤ (x : WithTop ℚ) := xi_le_of 0 x 0 rfl hx
    by_cases h4 : X_i 4 ≤ (x : WithTop ℚ)
    · by_cases h6 : X_i 6 ≤ (x : WithTop ℚ)
      · by_cases h7 : X_i 7 ≤ (x : WithTop ℚ)
        · have e8 : atanSearch x 8 0 8 = (7, 8) := by
            have h := atanSearch_eval7 x 5 h4 h6 h7
            norm_num at h
            exact h
          have e3 : atanSearch x 3 0 8 = (7, 8) := by
            have h := atanSearch_eval7 x 0 h4 h6 h7
            norm_num at h
            exact h
          rw [e8, e3]
          exact ⟨rfl, rfl, h7, by rw [show X_i 8 = ⊤ from rfl]; exact WithTop.coe_lt_top x⟩
        · have e8 : atanSearch x 8 0 8 = (6, 7) := by
            have h := atanSearch_eval6 x 5 h4 h6 h7
            norm_num at h
            exact h
          have e3 : atanSearch x 3 0 8 = (6, 7) := by
            have h := atanSearch_eval6 x 0 h4 h6 h7
            norm_num at h
            exact h
          rw [e8, e3]
          exact ⟨rfl, rfl, h6, not_le.mp h7⟩
      · by_cases h5 : X_i 5 ≤ (x : WithTop ℚ)
        · have e8 : atanSearch x 8 0 8 = (5, 6) := by
            have h := atanSearch_eval5 x 5 h4 h6 h5
            norm_num at h
            exact h
          have e3 : atanSearch x 3 0 8 = (5, 6) := by
            have h := atanSearch_eval5 x 0 h4 h6 h5
            norm_num at h
            exact h
          rw [e8, e3]
          exact ⟨rfl, rfl, h5, not_le.mp h6⟩
        · have e8 : atanSearch x 8 0 8 = (4, 5) := by
            have h := atanSearch_eval4 x 5 h4 h6 h5
            norm_num at h
            exact h
          have e3 : atanSearch x 3 0 8 = (4, 5) := by
            have h := atanSearch_eval4 x 0 h4 h6 h5
            norm_num at h
            exact h
          rw [e8, e3]
          exact ⟨rfl, rfl, h4, not_le.mp h5⟩
    · by_cases h2 : X_i 2 ≤ (x : WithTop ℚ)
      · by_cases h3 : X_i 3 ≤ (x : WithTop ℚ)
        · have e8 : atanSearch x 8 0 8 = (3, 4) := by
            have h := atanSearch_eval3 x 5 h4 h2 h3
            norm_num at h
            exact h
          have e3 : atanSearch x 3 0 8 = (3, 4) := by
            have h := atanSearch_eval3 x 0 h4 h2 h3
            norm_num at h
            exact h
          rw [e8, e3]
          exact ⟨rfl, rfl, h3, not_le.mp h4⟩
        · have e8 : atanSearch x 8 0 8 = (2, 3) := by
            have h := atanSearch_eval2 x 5 h4 h2 h3
            norm_num at h
            exact h
          have e3 : atanSearch x 3 0 8 = (2, 3) := by
            have h := atanSearch_eval2 x 0 h4 h2 h3
            norm_num at h
            exact h
          rw [e8, e3]
          exact ⟨rfl, rfl, h2, not_le.mp h3⟩
      · by_cases h1 : X_i 1 ≤ (x : WithTop ℚ)
        · have e8 : atanSearch x 8 0 8 = (1, 2) := by
            have h := atanSearch_eval1 x 5 h4 h2 h1
            norm_num at h
            exact h
          have e3 : atanSearch x 3 0 8 = (1, 2) := by
            have h := atanSearch_eval1 x 0 h4 h2 h1
            norm_num at h
            exact h
          rw [e8, e3]
          exact ⟨rfl, rfl, h1, not_le.mp h2⟩
        · have e8 : atanSearch x 8 0 8 = (0, 1) := by
            have h := atanSearch_eval0 x 5 h4 h2 h1
            norm_num at h
            exact h
          have e3 : atanSearch x 3 0 8 = (0, 1) := by
            have h := atanSearch_eval0 x 0 h4 h2 h1
            norm_num at h
            exact h
          rw [e8, e3]
          exact ⟨rfl, rfl, hx0, not_le.mp h1⟩

/-- Witness for C8 at the concrete input `x = 1`. -/
theorem C8_atan_search_witness :
    (atanSearch 1 8 0 8).2 = (atanSearch 1 8 0 8).1 + 1 ∧
    X_i (atanSearch 1 8 0 8).1 ≤ ((1 : ℚ) : WithTop ℚ) ∧
    ((1 : ℚ) : WithTop ℚ) < X_i (atanSearch 1 8 0 8).2 :=
  ⟨(C8_atan_search 1 (by norm_num)).2.1,
   (C8_atan_search 1 (by norm_num)).2.2.2.1,
   (C8_atan_search 1 (by norm_num)).2.2.2.2⟩

/-- Claim C2 (code_bug evaluation): at the failing input `x = 3.0`
(bit fields sign 0, exponent 1024, mantissa `2^51`), the bitwise rewrite of
`Log2` produces exponent field 1023, whose value `1.5` is an exact
power-of-two rescale of `3.0` but lies in `[1, 2)` — not in `[0.5, 1)` as
claimed, and outside the documented `[0.5, 1]` domain of `Log2Stage1` — and
`Log2` returns the unbiased exponent `1` plus `Log2Stage1` applied to that
out-of-domain value `1.5`. -/
theorem C2_log2_rewrite_at_three :
    DBits.val ⟨false, 1024, 2 ^ 51⟩ = 3 ∧
    ((1024 ||| 1023) &&& 1023 : ℕ) = 1023 ∧
    DBits.val ⟨false, 1023, 2 ^ 51⟩ = 3 / 2 ∧
    ¬DBits.val ⟨false, 1023, 2 ^ 51⟩ < 1 ∧
    Log2 ⟨false, 1024, 2 ^ 51⟩ = DVal.num (1 + Log2Stage1 (3 / 2)) := by
  have hv3 : DBits.val ⟨false, 1024, 2 ^ 51⟩ = 3 := by
    simp only [DBits.val]
    norm_num
  have hbits : ((1024 ||| 1023) &&& 1023 : ℕ) = 1023 := by decide
  have hv32 : DBits.val ⟨false, 1023, 2 ^ 51⟩ = 3 / 2 := by
    simp only [DBits.val]
    norm_num
  refine ⟨hv3, hbits, hv32, by rw [hv32]; norm_num, ?_⟩
  have hle0 : ¬DBits.le0 ⟨false, 1024, 2 ^ 51⟩ := by
    rintro ⟨-, h2⟩
    rcases h2 with hs | ⟨h0, -⟩
    · exact Bool.noConfusion hs
    · exact absurd h0 (by norm_num)
  simp only [Log2]
  rw [if_neg hle0]
  norm_num [hbits, hv32]
  rw [show (2251799813685248 : ℕ) = 2 ^ 51 by norm_num, hv32]
